import Mathlib

/-!
Shallow embedding of the work-session logger (`work_logger_app.py`): the
timer/session state machine (`toggle_session`, `update_timer`), the CSV log
store (`save_log`, `load_logs`) and the duration helpers (`parse_duration`,
`format_duration_seconds`), together with theorems settling the specification
claims about them.  GUI construction and audio playback are presentation glue
with no bearing on the claims and are not modelled.
-/

deriving instance DecidableEq for Except

namespace WorkLogger

/-- The Python exception kinds that the embedded code fragments can raise. -/
inductive PyErr where
  | valueError
  | indexError
  | typeError
  | keyError
  | attributeError
deriving DecidableEq, Repr

/-! ### Python `int` parsing (`int(s)` as used by `parse_duration`) -/

/-- Characters stripped from both ends by the Python `int` constructor
(ASCII whitespace; the source's unicode whitespace handling is restricted to
ASCII here). -/
def pyWs (c : Char) : Bool :=
  c = ' ' || c = '\t' || c = '\n' || c = '\r' || c = '\x0b' || c = '\x0c'

/-- Strip `pyWs` characters from both ends. -/
def stripEnds (cs : List Char) : List Char :=
  ((cs.dropWhile pyWs).reverse.dropWhile pyWs).reverse

/-- Continuation of a digit run accepted by the Python `int` constructor:
underscores only singly and only between digits. -/
def digitsRest : List Char → Bool
  | [] => true
  | '_' :: [] => false
  | '_' :: d :: t => d.isDigit && digitsRest (d :: t)
  | c :: t => c.isDigit && digitsRest t

/-- A nonempty digit run acceptable after the optional sign. -/
def digitsOk : List Char → Bool
  | [] => false
  | c :: t => c.isDigit && digitsRest t

/-- Numeric value of a digit run (underscores skipped). -/
def digitsVal (cs : List Char) : Nat :=
  (cs.filter (fun c => c ≠ '_')).foldl (fun n c => n * 10 + (c.toNat - 48)) 0

/-- Python `int(s)`: optional surrounding whitespace, optional sign, decimal
digits; anything else raises `ValueError`. -/
def pyInt (s : String) : Except PyErr Int :=
  match stripEnds s.toList with
  | '+' :: rest => if digitsOk rest then .ok (digitsVal rest : Int) else .error .valueError
  | '-' :: rest => if digitsOk rest then .ok (-(digitsVal rest : Int)) else .error .valueError
  | rest => if digitsOk rest then .ok (digitsVal rest : Int) else .error .valueError

/-! ### Python `str.split` on a single-character separator -/

/-- `s.split(sep)` on the character list (empty pieces kept). -/
def splitChars (sep : Char) : List Char → List (List Char)
  | [] => [[]]
  | c :: cs =>
    match splitChars sep cs with
    | [] => [[]]
    | h :: t => if c = sep then [] :: h :: t else (c :: h) :: t

/-- Python `s.split(sep)` for a one-character separator. -/
def pySplit (s : String) (sep : Char) : List String :=
  (splitChars sep s.toList).map List.asString

/-- `list(map(int, parts))`: the first failing `int` raises `ValueError`. -/
def mapInts : List String → Except PyErr (List Int)
  | [] => .ok []
  | s :: rest =>
    match pyInt s with
    | .error e => .error e
    | .ok v =>
      match mapInts rest with
      | .error e => .error e
      | .ok vs => .ok (v :: vs)

/-- `parse_duration` from the source:
`parts = list(map(int, duration_str.split(':')))` then
`parts[0] * 3600 + parts[1] * 60 + parts[2]`; fewer than three parts raise
`IndexError`. -/
def parse_duration (durationStr : String) : Except PyErr Int :=
  match mapInts (pySplit durationStr ':') with
  | .error e => .error e
  | .ok (a :: b :: c :: _) => .ok (a * 3600 + b * 60 + c)
  | .ok _ => .error .indexError

/-! ### Formatting helpers -/

/-- `f"{n:02}"` for a nonnegative value. -/
def pad2 (n : Nat) : String :=
  if n < 10 then "0" ++ toString n else toString n

/-- `f"{n:02}"` for a Python int (the sign occupies width, so only a single
nonnegative digit is actually padded at width 2). -/
def pad2Int (n : Int) : String :=
  let s := toString n
  if s.length < 2 then "0" ++ s else s

/-- `f"{n:04}"`-style year padding used by `strftime("%Y")`. -/
def pad4 (n : Nat) : String :=
  (if n < 10 then "000" else if n < 100 then "00" else if n < 1000 then "0" else "")
    ++ toString n

/-- `format_duration_seconds` from the source; Python `//` and `%` are floor
division and nonnegative remainder for these positive divisors. -/
def format_duration_seconds (totalSeconds : Int) : String :=
  let hours := Int.fdiv totalSeconds 3600
  let minutes := Int.fdiv (Int.emod totalSeconds 3600) 60
  let seconds := Int.emod totalSeconds 60
  pad2Int hours ++ ":" ++ pad2Int minutes ++ ":" ++ pad2Int seconds

/-! ### `datetime.datetime` values -/

/-- A `datetime.datetime` instant (proleptic Gregorian calendar, microsecond
resolution, naive local time as in the source). -/
structure PyDateTime where
  year : Nat
  month : Nat
  day : Nat
  hour : Nat
  minute : Nat
  second : Nat
  microsecond : Nat
deriving DecidableEq, Repr

/-- Gregorian leap-year rule. -/
def isLeap (y : Nat) : Bool :=
  y % 4 = 0 && (y % 100 ≠ 0 || y % 400 = 0)

/-- Days in the months strictly before month `m` of year `y`. -/
def daysInMonthsBefore (y m : Nat) : Nat :=
  let base := [0, 31, 59, 90, 120, 151, 181, 212, 243, 273, 304, 334].getD (m - 1) 0
  if 3 ≤ m && isLeap y then base + 1 else base

/-- `datetime.toordinal()`: day number in the proleptic Gregorian calendar. -/
def toOrdinal (dt : PyDateTime) : Nat :=
  let y := dt.year - 1
  365 * y + y / 4 - y / 100 + y / 400 + daysInMonthsBefore dt.year dt.month + dt.day

/-- The instant on an absolute microsecond scale. -/
def toMicros (dt : PyDateTime) : Int :=
  ((toOrdinal dt * 86400 + dt.hour * 3600 + dt.minute * 60 + dt.second : Nat) : Int) * 1000000
    + (dt.microsecond : Int)

/-- `int((endT - startT).total_seconds())`: the difference truncated toward
zero to whole seconds (sub-second precision discarded). -/
def truncDiffSeconds (startT endT : PyDateTime) : Int :=
  Int.tdiv (toMicros endT - toMicros startT) 1000000

/-- `strftime("%Y-%m-%d")`. -/
def fmtDate (dt : PyDateTime) : String :=
  pad4 dt.year ++ "-" ++ pad2 dt.month ++ "-" ++ pad2 dt.day

/-- `strftime("%H:%M:%S")`. -/
def fmtTimeHMS (dt : PyDateTime) : String :=
  pad2 dt.hour ++ ":" ++ pad2 dt.minute ++ ":" ++ pad2 dt.second

/-! ### The CSV log store -/

/-- One record as produced by `csv.DictReader`: each header field name paired
with the row's value; `none` is Python `None`, the `restval` filled in when the
physical row is shorter than the header. -/
abbrev Row := List (String × Option String)

/-- `dict(zip(fieldnames, row))` with `restval=None` for missing trailing
values (extra values beyond the header go to the `None` rest key, which none of
the four required field names can equal, so they are dropped here). -/
def mkRow (header raw : List String) : Row :=
  header.enum.map (fun p => (p.2, raw[p.1]?))

/-- Python `dict` lookup on the row; `dict(zip(...))` keeps the last binding of
a duplicated key, and `none` means the key is absent. -/
def rowFind (r : Row) (k : String) : Option (Option String) :=
  (r.reverse.find? (fun p => p.1 == k)).map (fun p => p.2)

/-- The four required CSV field names, in file column order. -/
def requiredFields : List String := ["Date", "Start Time", "End Time", "Duration"]

/-- `all(key in row for key in ['Date', 'Start Time', 'End Time', 'Duration'])`. -/
def hasAllKeys (r : Row) : Bool :=
  requiredFields.all (fun k => (rowFind r k).isSome)

/-- Field value on a row (rows reaching this point always have the key; the
impossible key-absent case collapses to `none` like a `None` value). -/
def rowVal (r : Row) (k : String) : Option String :=
  (rowFind r k).getD none

/-- `defaultdict(list)` append: extend the group of key `k`, creating it at the
end on first occurrence (Python dicts preserve insertion order). -/
def addRow (gs : List (Option String × List Row)) (k : Option String) (r : Row) :
    List (Option String × List Row) :=
  match gs with
  | [] => [(k, [r])]
  | (k0, l) :: t => if k0 = k then (k0, l ++ [r]) :: t else (k0, l) :: addRow t k r

/-- `logs_by_date`: group the well-formed rows by their `Date` value, keeping
original file order inside every group. -/
def groupByDate (rows : List Row) : List (Option String × List Row) :=
  rows.foldl (fun gs r => addRow gs (rowVal r "Date") r) []

/-- Group lookup (`logs_by_date[date_str]` for a key known to be present). -/
def findVal (gs : List (Option String × List Row)) (k : Option String) : List Row :=
  ((gs.find? (fun p => p.1 == k)).map (fun p => p.2)).getD []

/-! ### Sorting the date keys (`sorted(keys, reverse=True)`) -/

/-- Python string `<`: lexicographic comparison of code points. -/
def lexLtB : List Char → List Char → Bool
  | [], [] => false
  | [], _ :: _ => true
  | _ :: _, [] => false
  | c :: cs, d :: ds =>
    if c.toNat < d.toNat then true
    else if d.toNat < c.toNat then false
    else lexLtB cs ds

/-- Python `a < b` on strings. -/
def strLtB (a b : String) : Bool := lexLtB a.toList b.toList

/-- Python `a >= b` on strings. -/
def strGeB (a b : String) : Bool := ! strLtB a b

/-- Insert into a descending-sorted list, after every element that is ≥ it. -/
def insortDesc (x : String) : List String → List String
  | [] => [x]
  | y :: ys => if strGeB y x then y :: insortDesc x ys else x :: y :: ys

/-- Descending sort of the date strings (the keys are distinct, so any stable
comparison sort agrees with Python's `sorted(..., reverse=True)`). -/
def sortedDesc : List String → List String
  | [] => []
  | x :: xs => insortDesc x (sortedDesc xs)

/-- `sorted(logs_by_date.keys(), reverse=True)`: comparing `None` with another
key raises `TypeError`; a list of at most one key involves no comparison. -/
def pySortedDesc (ks : List (Option String)) : Except PyErr (List (Option String)) :=
  if ks.length ≤ 1 then .ok ks
  else if ks.all (fun k => k.isSome) then .ok ((sortedDesc (ks.filterMap id)).map some)
  else .error .typeError

/-! ### Per-day totals and session rendering -/

/-- The per-day total loop: add every session's parsed duration, skipping a
session on `ValueError` (the only exception the source catches there).  A
`None` value raises `AttributeError` (`None.split(':')`), a missing key raises
`KeyError`, and any other parse error (`IndexError` for fewer than three
components) propagates and aborts the load. -/
def daySeconds : List Row → Int → Except PyErr Int
  | [], acc => .ok acc
  | r :: rs, acc =>
    match rowFind r "Duration" with
    | none => .error .keyError
    | some none => .error .attributeError
    | some (some s) =>
      match parse_duration s with
      | .ok v => daySeconds rs (acc + v)
      | .error e => if e = .valueError then daySeconds rs acc else .error e

/-- A part matched by the `strptime` patterns for `%H`/`%M`/`%S`: one or two
decimal digits. -/
def twoDigit (s : String) : Bool :=
  let cs := s.toList
  decide (1 ≤ cs.length) && decide (cs.length ≤ 2) && cs.all Char.isDigit

/-- `datetime.strptime(s, '%H:%M:%S')` followed by the `datetime` constructor:
succeeds exactly on one- or two-digit hour ≤ 23, minute ≤ 59, second ≤ 59,
with nothing left over. -/
def parseTimeHMS (s : String) : Option (Nat × Nat × Nat) :=
  match pySplit s ':' with
  | [h, m, sec] =>
    if twoDigit h && twoDigit m && twoDigit sec then
      let hv := digitsVal h.toList
      let mv := digitsVal m.toList
      let sv := digitsVal sec.toList
      if hv ≤ 23 && mv ≤ 59 && sv ≤ 59 then some (hv, mv, sv) else none
    else none
  | _ => none

/-- `strftime('%I:%M:%S %p')` on a wall-clock time. -/
def fmt12 (t : Nat × Nat × Nat) : String :=
  let hr12 := if t.1 % 12 = 0 then 12 else t.1 % 12
  pad2 hr12 ++ ":" ++ pad2 t.2.1 ++ ":" ++ pad2 t.2.2 ++ " "
    ++ (if t.1 < 12 then "AM" else "PM")

/-- One rendered session line of the log tree. -/
structure Rendered where
  info : String
  startDisp : String
  endDisp : String
  durationDisp : Option String
deriving DecidableEq, Repr

/-- `f"  └─ Session {i+1}"`. -/
def sessionInfo (i : Nat) : String := "  └─ Session " ++ toString (i + 1)

/-- Render one session row: `strptime` on a `None` start or end time raises
`TypeError` (directly, or via `None + " (Err)"` in the handler); a
`ValueError` on either time falls back to both raw strings with an error
marker. -/
def renderSession (i : Nat) (r : Row) : Except PyErr Rendered :=
  match rowVal r "Start Time", rowVal r "End Time" with
  | some s, some e =>
    let disp :=
      match parseTimeHMS s, parseTimeHMS e with
      | some ts, some te => (fmt12 ts, fmt12 te)
      | _, _ => (s ++ " (Err)", e ++ " (Err)")
    .ok { info := sessionInfo i, startDisp := disp.1, endDisp := disp.2,
          durationDisp := rowVal r "Duration" }
  | _, _ => .error .typeError

/-- Render the sessions of one day in file order, numbered from `i + 1` on. -/
def renderAll (i : Nat) : List Row → Except PyErr (List Rendered)
  | [] => .ok []
  | r :: rs =>
    match renderSession i r with
    | .error e => .error e
    | .ok x =>
      match renderAll (i + 1) rs with
      | .error e => .error e
      | .ok xs => .ok (x :: xs)

/-- One displayed day group: the parent summary row plus its session rows. -/
structure DayGroup where
  date : Option String
  info : String
  total : String
  sessions : List Row
  rendered : List Rendered
deriving DecidableEq, Repr

/-- Python `f"{k}"` (`None` prints as `"None"`). -/
def pyShow (k : Option String) : String := k.getD "None"

/-- `f"{date_str} ({n} session{'s' if n != 1 else ''})"`. -/
def dateInfo (k : Option String) (n : Nat) : String :=
  pyShow k ++ " (" ++ toString n ++ " session" ++ (if n ≠ 1 then "s" else "") ++ ")"

/-- Build one day group: total first, then the rendered session rows. -/
def mkDayGroup (k : Option String) (sessions : List Row) : Except PyErr DayGroup :=
  match daySeconds sessions 0 with
  | .error e => .error e
  | .ok tot =>
    match renderAll 0 sessions with
    | .error e => .error e
    | .ok rend =>
      .ok { date := k, info := dateInfo k sessions.length,
            total := format_duration_seconds tot,
            sessions := sessions, rendered := rend }

/-- Process the sorted date keys in order, building each day group. -/
def buildGroups (gs : List (Option String × List Row)) :
    List (Option String) → Except PyErr (List DayGroup)
  | [] => .ok []
  | k :: ks =>
    match mkDayGroup k (findVal gs k) with
    | .error e => .error e
    | .ok g =>
      match buildGroups gs ks with
      | .error e => .error e
      | .ok rest => .ok (g :: rest)

/-! ### The log file, `save_log` and `load_logs` -/

/-- The log file at CSV record granularity (the `csv` module round-trips the
field values): `none` = absent, `some []` = zero-length, otherwise the list of
comma-separated records. -/
abbrev LogFile := Option (List (List String))

/-- The header row `Date,Start Time,End Time,Duration`. -/
def csvHeader : List String := ["Date", "Start Time", "End Time", "Duration"]

/-- `save_log`: open for append and write one record, preceded by the header
row exactly when the file did not exist or had size zero. -/
def save_log (file : LogFile) (date startTimeStr endTimeStr durationStr : String) :
    List (List String) :=
  let existing := file.getD []
  (if existing = [] then [csvHeader] else existing)
    ++ [[date, startTimeStr, endTimeStr, durationStr]]

/-- The well-formed rows of the data section: `csv.DictReader` drops blank
records, and rows missing a required field are skipped (logged only). -/
def validOf (header : List String) (data : List (List String)) : List Row :=
  ((data.filter (fun r => r ≠ [])).map (mkRow header)).filter hasAllKeys

/-- The well-formed rows of a log file (empty when absent or zero-length). -/
def validRowsOfFile : LogFile → List Row
  | none => []
  | some [] => []
  | some (header :: data) => validOf header data

/-- Group, sort and render the well-formed rows. -/
def loadFromValid (valid : List Row) : Except PyErr (List DayGroup) :=
  let gs := groupByDate valid
  match pySortedDesc (gs.map (fun p => p.1)) with
  | .error e => .error e
  | .ok ks => buildGroups gs ks

/-- `load_logs`: early empty result for an absent or zero-length file,
otherwise read all rows, skip malformed ones, group by date, sort the dates
descending, and total and render each day. -/
def load_logs : LogFile → Except PyErr (List DayGroup)
  | none => .ok []
  | some [] => .ok []
  | some (header :: data) => loadFromValid (validOf header data)

/-! ### The session timer state machine -/

/-- `self.pomodoro_duration_seconds`, set once in `__init__` and never
reassigned. -/
def pomodoro_duration_seconds : Nat := 25 * 60

/-- The mutable application state relevant to the timer and the log store. -/
structure AppState where
  is_session_active : Bool
  session_start_time : Option PyDateTime
  is_pomodoro_session : Bool
  timer_id : Bool
  logFile : LogFile
deriving DecidableEq, Repr

/-- The stop branch of `toggle_session` (reached manually, or from the
Pomodoro auto stop inside `update_timer`).  `saveOk` abstracts the file-system
outcome inside `save_log`: on failure the handler only shows a dialog and the
file is unchanged. -/
def stopSession (saveOk : Bool) (now : PyDateTime) (st : AppState) : AppState :=
  match st.session_start_time with
  | some t0 =>
    let total_seconds := truncDiffSeconds t0 now
    let hours := Int.fdiv total_seconds 3600
    let minutes := Int.fdiv (Int.emod total_seconds 3600) 60
    let seconds := Int.emod total_seconds 60
    let duration_str := pad2Int hours ++ ":" ++ pad2Int minutes ++ ":" ++ pad2Int seconds
    let file :=
      if saveOk then
        some (save_log st.logFile (fmtDate t0) (fmtTimeHMS t0) (fmtTimeHMS now) duration_str)
      else st.logFile
    { is_session_active := false, session_start_time := none,
      is_pomodoro_session := false, timer_id := false, logFile := file }
  | none =>
    { is_session_active := false, session_start_time := none,
      is_pomodoro_session := false, timer_id := false, logFile := st.logFile }

/-- `update_timer`: one timer tick at (simulated) instant `now`. -/
def update_timer (saveOk : Bool) (now : PyDateTime) (st : AppState) : AppState :=
  if st.is_session_active then
    match st.session_start_time with
    | some t0 =>
      if st.is_pomodoro_session
          && decide ((pomodoro_duration_seconds : Int) ≤ truncDiffSeconds t0 now) then
        stopSession saveOk now st
      else
        { st with timer_id := true }
    | none => st
  else st

/-- `toggle_session`: start a session when idle (the start branch immediately
runs `update_timer` once), stop and persist it when active. -/
def toggle_session (pomodoroVar saveOk : Bool) (now : PyDateTime) (st : AppState) : AppState :=
  if st.is_session_active then
    stopSession saveOk now st
  else
    update_timer saveOk now
      { st with is_session_active := true, session_start_time := some now,
                is_pomodoro_session := pomodoroVar }

/-- The displayed per-day totals of a load result, `none` on an aborted load. -/
def totalsOf (r : Except PyErr (List DayGroup)) : Option (List String) :=
  match r with
  | .ok gs => some (gs.map (fun g => g.total))
  | .error _ => none

/-- Sum of a day's durations with every session that fails to parse counting
zero (the displayed-total contract stated by the specification). -/
def sumParseable : List Row → Int
  | [] => 0
  | r :: rs =>
    (match rowVal r "Duration" with
     | some s =>
       match parse_duration s with
       | .ok v => v
       | .error _ => 0
     | none => 0) + sumParseable rs

/-! ### Claim theorems: concrete end-to-end behaviour -/

/-- C5: loading when the log file does not exist, or exists with zero length,
yields zero day groups and does not signal an error. -/
theorem load_absent_or_empty :
    load_logs none = .ok [] ∧ load_logs (some []) = .ok [] :=
  ⟨rfl, rfl⟩

/-- C1: appending `("2024-01-01","09:00:00","09:01:30","00:01:30")` and then
`("2024-01-01","10:00:00","10:00:30","00:00:30")` to an initially empty log and
loading yields exactly one day group, for date `2024-01-01`, with total
`00:02:00`, listing exactly those two sessions in append order. -/
theorem append_two_then_load_example :
    load_logs (some (save_log
        (some (save_log none "2024-01-01" "09:00:00" "09:01:30" "00:01:30"))
        "2024-01-01" "10:00:00" "10:00:30" "00:00:30")) =
      .ok [{ date := some "2024-01-01",
             info := "2024-01-01 (2 sessions)",
             total := "00:02:00",
             sessions := [[("Date", some "2024-01-01"), ("Start Time", some "09:00:00"),
                           ("End Time", some "09:01:30"), ("Duration", some "00:01:30")],
                          [("Date", some "2024-01-01"), ("Start Time", some "10:00:00"),
                           ("End Time", some "10:00:30"), ("Duration", some "00:00:30")]],
             rendered := [{ info := "  └─ Session 1", startDisp := "09:00:00 AM",
                            endDisp := "09:01:30 AM", durationDisp := some "00:01:30" },
                          { info := "  └─ Session 2", startDisp := "10:00:00 AM",
                            endDisp := "10:00:30 AM", durationDisp := some "00:00:30" }] }] := by
  decide

/-- C3 counterexample: the duration `"90"` fails to parse (its single integer
component leaves `parts[1]` out of range, an `IndexError` the load loop does
not catch), and loading aborts with that error instead of listing the session
with a zero contribution — even though another, well-formed row is present. -/
theorem short_duration_aborts_load :
    load_logs (some [["Date", "Start Time", "End Time", "Duration"],
                     ["2024-01-01", "09:00:00", "09:01:30", "90"],
                     ["2024-01-02", "10:00:00", "10:00:30", "00:00:30"]]) =
      .error .indexError := by
  decide

/-- C9 counterexample: `"-1:00:00"` parses successfully (Python `int` accepts
a sign), and the resulting negative duration decreases the day's displayed
total: one hour plus minus-one hour totals `00:00:00` instead of `01:00:00`. -/
theorem negative_duration_parses :
    parse_duration "-1:00:00" = .ok (-3600) ∧
    totalsOf (load_logs (some [csvHeader,
        ["2024-01-01", "09:00:00", "10:00:00", "01:00:00"],
        ["2024-01-01", "10:00:00", "11:00:00", "-1:00:00"]])) = some ["00:00:00"] ∧
    totalsOf (load_logs (some [csvHeader,
        ["2024-01-01", "09:00:00", "10:00:00", "01:00:00"]])) = some ["01:00:00"] := by
  refine ⟨by decide, by decide, by decide⟩

/-! ### Claim theorems: the timer state machine -/

/-- Both branches of the stop transition leave the timer fields idle. -/
theorem stopSession_idle (saveOk : Bool) (now : PyDateTime) (st : AppState) :
    (stopSession saveOk now st).is_session_active = false ∧
    (stopSession saveOk now st).session_start_time = none ∧
    (stopSession saveOk now st).is_pomodoro_session = false := by
  unfold stopSession
  cases st.session_start_time <;> simp

/-- C2: starting a Pomodoro session and ticking the timer when exactly 1500
seconds have elapsed (no further time passing) stops the session automatically
and persists a record with duration `00:25:00`; in general, a tick of an
active session stops it exactly when `is_pomodoro_session` is true and the
elapsed time is at least 1500 seconds. -/
theorem pomodoro_auto_stop :
    (update_timer true ⟨2024, 1, 1, 9, 25, 0, 0⟩
        (toggle_session true true ⟨2024, 1, 1, 9, 0, 0, 0⟩
          { is_session_active := false, session_start_time := none,
            is_pomodoro_session := false, timer_id := false, logFile := none }) =
      { is_session_active := false, session_start_time := none,
        is_pomodoro_session := false, timer_id := false,
        logFile := some [csvHeader, ["2024-01-01", "09:00:00", "09:25:00", "00:25:00"]] }) ∧
    ∀ (saveOk : Bool) (st : AppState) (t0 now : PyDateTime),
      st.is_session_active = true → st.session_start_time = some t0 →
      ((update_timer saveOk now st).is_session_active = false ↔
        (st.is_pomodoro_session = true ∧ (1500 : Int) ≤ truncDiffSeconds t0 now)) := by
  constructor
  · decide
  · intro saveOk st t0 now hact hstart
    have hconst : ((pomodoro_duration_seconds : Nat) : Int) = 1500 := by
      unfold pomodoro_duration_seconds
      norm_num
    simp only [update_timer, hact, hstart, if_true, hconst]
    by_cases hb : (st.is_pomodoro_session
        && decide ((1500 : Int) ≤ truncDiffSeconds t0 now)) = true
    · rw [if_pos hb]
      simp only [(stopSession_idle saveOk now st).1, true_iff]
      simpa [Bool.and_eq_true, decide_eq_true_iff] using hb
    · rw [if_neg hb]
      simp only [hact]
      constructor
      · intro h
        exact absurd h (by simp)
      · intro h
        exact absurd (by simp [Bool.and_eq_true, decide_eq_true_iff, h.1, h.2]) hb

/-- C2 witness: the general tick characterization applied to a concrete active
Pomodoro state at exactly 1500 elapsed seconds. -/
theorem pomodoro_auto_stop_witness :
    (update_timer true ⟨2024, 1, 1, 9, 25, 0, 0⟩
        { is_session_active := true, session_start_time := some ⟨2024, 1, 1, 9, 0, 0, 0⟩,
          is_pomodoro_session := true, timer_id := true,
          logFile := none }).is_session_active = false :=
  (pomodoro_auto_stop.2 true _ ⟨2024, 1, 1, 9, 0, 0, 0⟩ ⟨2024, 1, 1, 9, 25, 0, 0⟩
      rfl rfl).mpr ⟨rfl, by decide⟩

/-- C8: stopping an active session appends exactly the record whose duration
is the end-minus-start difference truncated to whole seconds and formatted as
zero-padded `HH:MM:SS`, with the date and time fields serialized from the
start and end instants. -/
theorem stored_duration_truncated_formatted :
    ∀ (pomodoroVar : Bool) (st : AppState) (t0 now : PyDateTime),
      st.is_session_active = true → st.session_start_time = some t0 →
      (toggle_session pomodoroVar true now st).logFile =
        some (save_log st.logFile (fmtDate t0) (fmtTimeHMS t0) (fmtTimeHMS now)
          (format_duration_seconds (truncDiffSeconds t0 now))) := by
  intro pv st t0 now hact hstart
  simp only [toggle_session, hact, if_true, stopSession, hstart, format_duration_seconds]

/-- C8 witness: a concrete stop at 90.7 elapsed seconds stores `00:01:30`. -/
theorem stored_duration_truncated_formatted_witness :
    (toggle_session false true ⟨2024, 1, 1, 9, 1, 30, 700000⟩
        { is_session_active := true, session_start_time := some ⟨2024, 1, 1, 9, 0, 0, 0⟩,
          is_pomodoro_session := false, timer_id := true, logFile := none }).logFile =
      some [csvHeader, ["2024-01-01", "09:00:00", "09:01:30", "00:01:30"]] := by
  have h := stored_duration_truncated_formatted false
    { is_session_active := true, session_start_time := some ⟨2024, 1, 1, 9, 0, 0, 0⟩,
      is_pomodoro_session := false, timer_id := true, logFile := none }
    ⟨2024, 1, 1, 9, 0, 0, 0⟩ ⟨2024, 1, 1, 9, 1, 30, 700000⟩ rfl rfl
  rw [h]
  decide

/-- C10: after any stop transition — manual stop, or a tick that stopped the
session — the state is idle: `is_session_active` false, `session_start_time`
none, `is_pomodoro_session` false, whether or not the save succeeded. -/
theorem stop_transition_idles :
    ∀ (pomodoroVar saveOk : Bool) (now : PyDateTime) (st : AppState),
      st.is_session_active = true →
      ((toggle_session pomodoroVar saveOk now st).is_session_active = false ∧
       (toggle_session pomodoroVar saveOk now st).session_start_time = none ∧
       (toggle_session pomodoroVar saveOk now st).is_pomodoro_session = false) ∧
      ((update_timer saveOk now st).is_session_active = false →
        ((update_timer saveOk now st).session_start_time = none ∧
         (update_timer saveOk now st).is_pomodoro_session = false)) := by
  intro pv saveOk now st hact
  constructor
  · simp only [toggle_session, hact, if_true]
    exact stopSession_idle saveOk now st
  · intro hstop
    rcases hs : st.session_start_time with _ | t0
    · rw [update_timer, hact] at hstop
      simp only [hs, if_true] at hstop
      rw [hact] at hstop
      simp at hstop
    · rw [update_timer, hact] at hstop ⊢
      simp only [hs, if_true] at hstop ⊢
      by_cases hb : (st.is_pomodoro_session
          && decide ((pomodoro_duration_seconds : Int) ≤ truncDiffSeconds t0 now)) = true
      · rw [if_pos hb] at hstop ⊢
        exact ⟨(stopSession_idle saveOk now st).2.1, (stopSession_idle saveOk now st).2.2⟩
      · rw [if_neg hb] at hstop
        simp at hstop

/-- C10 witness: a concrete manual stop with a failing save still idles. -/
theorem stop_transition_idles_witness :
    ((toggle_session false false ⟨2024, 1, 1, 10, 0, 0, 0⟩
        { is_session_active := true, session_start_time := some ⟨2024, 1, 1, 9, 0, 0, 0⟩,
          is_pomodoro_session := true, timer_id := true,
          logFile := none }).is_session_active = false ∧
     (toggle_session false false ⟨2024, 1, 1, 10, 0, 0, 0⟩
        { is_session_active := true, session_start_time := some ⟨2024, 1, 1, 9, 0, 0, 0⟩,
          is_pomodoro_session := true, timer_id := true,
          logFile := none }).session_start_time = none ∧
     (toggle_session false false ⟨2024, 1, 1, 10, 0, 0, 0⟩
        { is_session_active := true, session_start_time := some ⟨2024, 1, 1, 9, 0, 0, 0⟩,
          is_pomodoro_session := true, timer_id := true,
          logFile := none }).is_pomodoro_session = false) :=
  (stop_transition_idles false false ⟨2024, 1, 1, 10, 0, 0, 0⟩
    { is_session_active := true, session_start_time := some ⟨2024, 1, 1, 9, 0, 0, 0⟩,
      is_pomodoro_session := true, timer_id := true, logFile := none } rfl).1

/-! ### Claim theorems: persistence -/

/-- C4: a data row whose record misses one of the four required fields is
excluded from grouping and aggregation without aborting the load of the
remaining rows: deleting it from the file leaves the load result unchanged. -/
theorem row_missing_field_skipped :
    ∀ (header : List String) (d1 d2 : List (List String)) (raw : List String),
      hasAllKeys (mkRow header raw) = false →
      load_logs (some (header :: (d1 ++ raw :: d2))) =
        load_logs (some (header :: (d1 ++ d2))) := by
  intro header d1 d2 raw h
  show loadFromValid (validOf header (d1 ++ raw :: d2)) =
    loadFromValid (validOf header (d1 ++ d2))
  congr 1
  unfold validOf
  by_cases hr : raw = []
  · subst hr
    simp [List.filter_append, List.filter_cons]
  · simp [List.filter_append, List.filter_cons, List.map_append, hr, h]

/-- C4 witness: a concrete row lacking the `End Time` and `Duration` fields
(the header names only two columns) is skipped without affecting the rest. -/
theorem row_missing_field_skipped_witness :
    load_logs (some (["Date", "Start Time"] :: ([] ++ ["2024-01-01", "09:00:00"] :: []))) =
      load_logs (some (["Date", "Start Time"] :: ([] ++ []))) :=
  row_missing_field_skipped ["Date", "Start Time"] [] [] ["2024-01-01", "09:00:00"] (by decide)

/-- `f"{n:02}"` yields exactly two characters for values below 100. -/
theorem pad2_len : ∀ n < 100, (pad2 n).length = 2 := by decide

/-- C6: `save_log` writes the header row `Date,Start Time,End Time,Duration`
exactly when the file is absent or currently empty, then exactly one data row
in fixed column order (no second header on a non-empty file); the date field
is serialized as `YYYY-MM-DD` and the time fields as zero-padded 24-hour
`HH:MM:SS`. -/
theorem save_log_header_and_serialization :
    (∀ date s e d, save_log none date s e d = [csvHeader, [date, s, e, d]] ∧
        save_log (some []) date s e d = [csvHeader, [date, s, e, d]]) ∧
    (∀ rows date s e d, rows ≠ [] →
        save_log (some rows) date s e d = rows ++ [[date, s, e, d]]) ∧
    (∀ dt : PyDateTime, dt.hour < 24 → dt.minute < 60 → dt.second < 60 →
        (fmtTimeHMS dt).length = 8) ∧
    (∀ dt : PyDateTime, fmtDate dt = pad4 dt.year ++ "-" ++ pad2 dt.month ++ "-" ++ pad2 dt.day) ∧
    pad4 2024 = "2024" := by
  refine ⟨fun date s e d => ⟨rfl, rfl⟩, ?_, ?_, fun dt => rfl, by decide⟩
  · intro rows date s e d h
    unfold save_log
    simp [h]
  · intro dt h1 h2 h3
    unfold fmtTimeHMS
    rw [String.length_append, String.length_append, String.length_append,
      String.length_append]
    rw [pad2_len dt.hour (by omega), pad2_len dt.minute (by omega),
      pad2_len dt.second (by omega)]
    rfl

/-- C6 witness: appending to a file holding only the header adds no second
header, and a concrete time string has the padded 8-character shape. -/
theorem save_log_header_and_serialization_witness :
    save_log (some [csvHeader]) "2024-01-02" "08:00:00" "09:00:00" "01:00:00" =
      [csvHeader, ["2024-01-02", "08:00:00", "09:00:00", "01:00:00"]] ∧
    (fmtTimeHMS ⟨2024, 1, 2, 8, 0, 0, 0⟩).length = 8 :=
  ⟨save_log_header_and_serialization.2.1 [csvHeader]
      "2024-01-02" "08:00:00" "09:00:00" "01:00:00" (by decide),
   save_log_header_and_serialization.2.2.1 ⟨2024, 1, 2, 8, 0, 0, 0⟩
      (by decide) (by decide) (by decide)⟩

/-- C9 amended: a Duration string parses successfully exactly when all of its
colon-separated components are Python integer literals — sign permitted, not
only positive values — and there are at least three of them; `-1:00:00`
parses to `-3600`, and such a negative component decreases the day's total
(two hours plus minus-one hour displays as `01:00:00`). -/
theorem duration_parse_signed_integers :
    (∀ s v, parse_duration s = .ok v →
        ∃ a b c rest, mapInts (pySplit s ':') = .ok (a :: b :: c :: rest) ∧
          v = a * 3600 + b * 60 + c) ∧
    parse_duration "-1:00:00" = .ok (-3600) ∧
    totalsOf (load_logs (some [csvHeader,
        ["2024-01-03", "09:00:00", "11:00:00", "02:00:00"],
        ["2024-01-03", "11:00:00", "12:00:00", "-1:00:00"]])) = some ["01:00:00"] := by
  refine ⟨?_, by decide, by decide⟩
  intro s v h
  unfold parse_duration at h
  rcases hm : mapInts (pySplit s ':') with e | l
  · rw [hm] at h
    cases h
  · rw [hm] at h
    rcases l with _ | ⟨a, _ | ⟨b, _ | ⟨c, rest⟩⟩⟩
    · cases h
    · cases h
    · cases h
    · exact ⟨a, b, c, rest, rfl, by cases h; rfl⟩

/-- C9 amended witness: the characterization applied to `00:01:30`. -/
theorem duration_parse_signed_integers_witness :
    ∃ a b c rest, mapInts (pySplit "00:01:30" ':') = .ok (a :: b :: c :: rest) ∧
      (90 : Int) = a * 3600 + b * 60 + c :=
  duration_parse_signed_integers.1 "00:01:30" 90 (by decide)

/-! ### Order properties of the Python string comparison -/

/-- Equal code points give equal characters. -/
theorem char_toNat_inj (c d : Char) (h : c.toNat = d.toNat) : c = d :=
  Char.ext (UInt32.ext h)

/-- `<` on strings is asymmetric. -/
theorem lexLtB_asymm : ∀ a b : List Char, lexLtB a b = true → lexLtB b a = false := by
  intro a
  induction a with
  | nil =>
    intro b h
    cases b with
    | nil => simp [lexLtB] at h
    | cons d ds => simp [lexLtB]
  | cons c cs ih =>
    intro b h
    cases b with
    | nil => simp [lexLtB] at h
    | cons d ds =>
      simp only [lexLtB] at h ⊢
      by_cases h1 : c.toNat < d.toNat
      · rw [if_neg (show ¬ d.toNat < c.toNat by omega), if_pos h1]
      · rw [if_neg h1] at h
        by_cases h2 : d.toNat < c.toNat
        · rw [if_pos h2] at h
          cases h
        · rw [if_neg h2] at h
          rw [if_neg h2, if_neg h1]
          exact ih ds h

/-- Two strings neither of which is below the other are equal. -/
theorem lexLtB_conn : ∀ a b : List Char, lexLtB a b = false → lexLtB b a = false → a = b := by
  intro a
  induction a with
  | nil =>
    intro b h1 h2
    cases b with
    | nil => rfl
    | cons d ds => simp [lexLtB] at h1
  | cons c cs ih =>
    intro b h1 h2
    cases b with
    | nil => simp [lexLtB] at h2
    | cons d ds =>
      simp only [lexLtB] at h1 h2
      by_cases h3 : c.toNat < d.toNat
      · rw [if_pos h3] at h1
        cases h1
      · by_cases h4 : d.toNat < c.toNat
        · rw [if_pos h4] at h2
          cases h2
        · rw [if_neg h3, if_neg h4] at h1
          rw [if_neg h4, if_neg h3] at h2
          rw [char_toNat_inj c d (by omega), ih ds h1 h2]

/-- `<` on strings is linear: a span `a < c` passes through any `b`. -/
theorem lexLtB_linear :
    ∀ a b c : List Char, lexLtB a c = true → lexLtB a b = true ∨ lexLtB b c = true := by
  intro a
  induction a with
  | nil =>
    intro b c h
    cases b with
    | nil => exact Or.inr h
    | cons y ys => exact Or.inl (by simp [lexLtB])
  | cons x xs ih =>
    intro b c h
    cases c with
    | nil => simp [lexLtB] at h
    | cons z zs =>
      cases b with
      | nil => exact Or.inr (by simp [lexLtB])
      | cons y ys =>
        simp only [lexLtB] at h ⊢
        by_cases h1 : x.toNat < z.toNat
        · by_cases h2 : x.toNat < y.toNat
          · exact Or.inl (by rw [if_pos h2])
          · exact Or.inr (by rw [if_pos (show y.toNat < z.toNat by omega)])
        · by_cases h4 : z.toNat < x.toNat
          · rw [if_neg h1, if_pos h4] at h
            cases h
          · rw [if_neg h1, if_neg h4] at h
            by_cases h2 : x.toNat < y.toNat
            · exact Or.inl (by rw [if_pos h2])
            · by_cases h3 : y.toNat < x.toNat
              · exact Or.inr (by rw [if_pos (show y.toNat < z.toNat by omega)])
              · have hxy := char_toNat_inj x y (by omega)
                subst hxy
                rcases ih ys zs h with hl | hr
                · refine Or.inl ?_
                  rw [if_neg h2, if_neg h3]
                  exact hl
                · refine Or.inr ?_
                  rw [if_neg (show ¬ x.toNat < z.toNat from h1),
                    if_neg (show ¬ z.toNat < x.toNat from h4)]
                  exact hr

/-- `String.toList` determines the string. -/
theorem string_toList_inj {a b : String} (h : a.toList = b.toList) : a = b := by
  cases a with
  | mk d1 =>
    cases b with
    | mk d2 =>
      have h2 : d1 = d2 := h
      rw [h2]

/-- Asymmetry, transported to strings. -/
theorem strLtB_asymm (a b : String) (h : strLtB a b = true) : strLtB b a = false :=
  lexLtB_asymm a.toList b.toList h

/-- Connexity, transported to strings. -/
theorem strLtB_conn (a b : String) (h1 : strLtB a b = false) (h2 : strLtB b a = false) :
    a = b :=
  string_toList_inj (lexLtB_conn a.toList b.toList h1 h2)

/-- Linearity, transported to strings. -/
theorem strLtB_linear (a b c : String) (h : strLtB a c = true) :
    strLtB a b = true ∨ strLtB b c = true :=
  lexLtB_linear a.toList b.toList c.toList h

/-- Totality of the descending comparison used by the key sort. -/
theorem strGeB_total (a b : String) : strGeB a b = true ∨ strGeB b a = true := by
  unfold strGeB
  cases hl : strLtB a b
  · left
    rfl
  · right
    rw [strLtB_asymm a b hl]
    rfl

/-- Transitivity of the descending comparison used by the key sort. -/
theorem strGeB_trans (a b c : String) (h1 : strGeB a b = true) (h2 : strGeB b c = true) :
    strGeB a c = true := by
  unfold strGeB at h1 h2 ⊢
  cases h3 : strLtB a c
  · rfl
  · rcases strLtB_linear a b c h3 with hx | hx
    · simp [hx] at h1
    · simp [hx] at h2

/-- Membership through the sorted insertion. -/
theorem mem_insortDesc (x y : String) :
    ∀ l, y ∈ insortDesc x l ↔ y = x ∨ y ∈ l := by
  intro l
  induction l with
  | nil => simp [insortDesc]
  | cons z zs ih =>
    unfold insortDesc
    by_cases h : strGeB z x = true
    · rw [if_pos h]
      simp only [List.mem_cons, ih]
      tauto
    · rw [if_neg h]
      simp

/-- The sorted insertion permutes the cons. -/
theorem insortDesc_perm (x : String) : ∀ l, List.Perm (insortDesc x l) (x :: l) := by
  intro l
  induction l with
  | nil => simp [insortDesc]
  | cons z zs ih =>
    unfold insortDesc
    by_cases h : strGeB z x = true
    · rw [if_pos h]
      exact (ih.cons z).trans (List.Perm.swap x z zs)
    · rw [if_neg h]

/-- The key sort permutes its input. -/
theorem sortedDesc_perm : ∀ l, List.Perm (sortedDesc l) l := by
  intro l
  induction l with
  | nil => simp [sortedDesc]
  | cons z zs ih =>
    exact (insortDesc_perm z (sortedDesc zs)).trans (ih.cons z)

/-- The sorted insertion preserves descending pairwise order. -/
theorem pairwise_insortDesc (x : String) :
    ∀ l, List.Pairwise (fun a b => strGeB a b = true) l →
      List.Pairwise (fun a b => strGeB a b = true) (insortDesc x l) := by
  intro l
  induction l with
  | nil =>
    intro _
    simp [insortDesc]
  | cons z zs ih =>
    intro hp
    rw [List.pairwise_cons] at hp
    unfold insortDesc
    by_cases h : strGeB z x = true
    · rw [if_pos h]
      rw [List.pairwise_cons]
      refine ⟨?_, ih hp.2⟩
      intro b hb
      rcases (mem_insortDesc x b zs).mp hb with rfl | hb2
      · exact h
      · exact hp.1 b hb2
    · rw [if_neg h]
      rw [List.pairwise_cons]
      have hxz : strGeB x z = true := (strGeB_total z x).resolve_left h
      refine ⟨?_, List.pairwise_cons.mpr hp⟩
      intro b hb
      rcases List.mem_cons.mp hb with rfl | hb2
      · exact hxz
      · exact strGeB_trans x z b hxz (hp.1 b hb2)

/-- The key sort produces a descending pairwise-ordered list. -/
theorem pairwise_sortedDesc :
    ∀ l, List.Pairwise (fun a b => strGeB a b = true) (sortedDesc l) := by
  intro l
  induction l with
  | nil => simp [sortedDesc]
  | cons z zs ih => exact pairwise_insortDesc z (sortedDesc zs) ih

/-! ### Structure of the grouping fold -/

/-- Group lookup on a cons. -/
theorem findVal_cons (k1 : Option String) (l : List Row)
    (t : List (Option String × List Row)) (k : Option String) :
    findVal ((k1, l) :: t) k = if k1 = k then l else findVal t k := by
  by_cases h : k1 = k
  · simp [findVal, List.find?_cons_of_pos, h]
  · rw [if_neg h]
    unfold findVal
    rw [List.find?_cons_of_neg]
    simpa using h

/-- Appending one row to the groups extends exactly its key's group. -/
theorem findVal_addRow (gs : List (Option String × List Row)) (k0 : Option String) (r : Row)
    (k : Option String) :
    findVal (addRow gs k0 r) k = findVal gs k ++ (if k0 = k then [r] else []) := by
  induction gs with
  | nil =>
    by_cases h : k0 = k <;>
      simp [addRow, findVal_cons, findVal, h]
  | cons p t ih =>
    obtain ⟨k1, l⟩ := p
    unfold addRow
    by_cases h1 : k1 = k0
    · rw [if_pos h1]
      by_cases h2 : k1 = k
      · rw [findVal_cons, if_pos h2, findVal_cons, if_pos h2, if_pos (h1 ▸ h2)]
      · rw [findVal_cons, if_neg h2, findVal_cons, if_neg h2,
          if_neg (fun hk => h2 (h1.trans hk)), List.append_nil]
    · rw [if_neg h1]
      by_cases h2 : k1 = k
      · rw [findVal_cons, if_pos h2, findVal_cons, if_pos h2,
          if_neg (fun hk => h1 (h2.trans hk.symm)), List.append_nil]
      · rw [findVal_cons, if_neg h2, findVal_cons, if_neg h2, ih]

/-- The grouping fold collects, for each key, exactly the matching rows in
original order. -/
theorem findVal_foldl (rows : List Row) :
    ∀ (gs : List (Option String × List Row)) (k : Option String),
      findVal (rows.foldl (fun a r => addRow a (rowVal r "Date") r) gs) k =
        findVal gs k ++ rows.filter (fun r => rowVal r "Date" == k) := by
  induction rows with
  | nil =>
    intro gs k
    simp
  | cons r rs ih =>
    intro gs k
    rw [List.foldl_cons, ih, findVal_addRow, List.filter_cons]
    by_cases h : rowVal r "Date" = k
    · rw [if_pos h, if_pos (by simpa using h), List.append_assoc]
      rfl
    · rw [if_neg h, if_neg (by simpa using h), List.append_nil]

/-- `logs_by_date[k]` is the in-order filter of the well-formed rows on `k`. -/
theorem groupByDate_findVal (rows : List Row) (k : Option String) :
    findVal (groupByDate rows) k = rows.filter (fun r => rowVal r "Date" == k) := by
  have h := findVal_foldl rows [] k
  simpa [groupByDate, findVal] using h

/-- The key list after one grouped append. -/
theorem keys_addRow (gs : List (Option String × List Row)) (k0 : Option String) (r : Row) :
    (addRow gs k0 r).map (fun p => p.1) =
      if k0 ∈ gs.map (fun p => p.1) then gs.map (fun p => p.1)
      else gs.map (fun p => p.1) ++ [k0] := by
  induction gs with
  | nil => simp [addRow]
  | cons p t ih =>
    obtain ⟨k1, l⟩ := p
    unfold addRow
    by_cases h : k1 = k0
    · rw [if_pos h]
      simp [h]
    · rw [if_neg h]
      by_cases h2 : k0 ∈ t.map (fun p => p.1)
      · simp only [List.map_cons, ih, if_pos h2]
        rw [if_pos (List.mem_cons_of_mem k1 h2)]
      · simp only [List.map_cons, ih, if_neg h2]
        rw [if_neg (fun hm => by
          rcases List.mem_cons.mp hm with h3 | h3
          · exact h h3.symm
          · exact h2 h3)]
        rfl

/-- Grouped appends keep the key list duplicate-free. -/
theorem keys_nodup_addRow (gs : List (Option String × List Row)) (k0 : Option String)
    (r : Row) (h : (gs.map (fun p => p.1)).Nodup) :
    ((addRow gs k0 r).map (fun p => p.1)).Nodup := by
  rw [keys_addRow]
  by_cases h2 : k0 ∈ gs.map (fun p => p.1)
  · rw [if_pos h2]
    exact h
  · rw [if_neg h2]
    simp [List.nodup_append, h, h2]

/-- The grouped keys are duplicate-free. -/
theorem groupByDate_keys_nodup (rows : List Row) :
    ((groupByDate rows).map (fun p => p.1)).Nodup := by
  suffices h : ∀ gs : List (Option String × List Row), (gs.map (fun p => p.1)).Nodup →
      (((rows.foldl (fun a r => addRow a (rowVal r "Date") r) gs)).map
        (fun p => p.1)).Nodup by
    exact h [] (by simp)
  induction rows with
  | nil =>
    intro gs h
    simpa using h
  | cons r rs ih =>
    intro gs h
    rw [List.foldl_cons]
    exact ih _ (keys_nodup_addRow gs (rowVal r "Date") r h)

/-! ### Structure of the per-day total and rendering loops -/

/-- A successful total is the accumulator plus the parseable-or-zero sum. -/
theorem daySeconds_ok (rows : List Row) :
    ∀ (acc t : Int), daySeconds rows acc = .ok t → t = acc + sumParseable rows := by
  induction rows with
  | nil =>
    intro acc t h
    cases h
    simp [sumParseable]
  | cons r rs ih =>
    intro acc t h
    unfold daySeconds at h
    rcases h1 : rowFind r "Duration" with _ | v
    · rw [h1] at h
      cases h
    · rcases v with _ | s
      · rw [h1] at h
        cases h
      · simp only [h1] at h
        rcases h2 : parse_duration s with e | pv
        · simp only [h2] at h
          by_cases he : e = PyErr.valueError
          · rw [if_pos he] at h
            rw [ih acc t h]
            simp [sumParseable, rowVal, h1, h2]
          · rw [if_neg he] at h
            cases h
        · simp only [h2] at h
          rw [ih (acc + pv) t h]
          simp only [sumParseable, rowVal, h1, h2, Option.getD_some]
          ring

/-- A `ValueError` while parsing a duration is always caught: the per-day
total loop never aborts with it. -/
theorem daySeconds_never_valueError (rows : List Row) :
    ∀ acc : Int, daySeconds rows acc ≠ .error .valueError := by
  induction rows with
  | nil =>
    intro acc h
    cases h
  | cons r rs ih =>
    intro acc h
    unfold daySeconds at h
    rcases h1 : rowFind r "Duration" with _ | v
    · rw [h1] at h
      cases h
    · rcases v with _ | s
      · rw [h1] at h
        cases h
      · simp only [h1] at h
        rcases h2 : parse_duration s with e | pv
        · simp only [h2] at h
          by_cases he : e = PyErr.valueError
          · rw [if_pos he] at h
            exact ih acc h
          · rw [if_neg he] at h
            injection h with h3
            exact he h3
        · simp only [h2] at h
          exact ih (acc + pv) h

/-- Fields of a successfully rendered session line. -/
theorem renderSession_fields (i : Nat) (r : Row) (x : Rendered)
    (h : renderSession i r = .ok x) :
    x.info = sessionInfo i ∧ x.durationDisp = rowVal r "Duration" := by
  unfold renderSession at h
  rcases h1 : rowVal r "Start Time" with _ | s
  · rw [h1] at h
    cases h
  · rw [h1] at h
    rcases h2 : rowVal r "End Time" with _ | e
    · rw [h2] at h
      cases h
    · rw [h2] at h
      cases h
      exact ⟨rfl, rfl⟩

/-- A successful rendering pass lists every session once, numbered in order,
and shows each session's raw duration value. -/
theorem renderAll_ok (rows : List Row) :
    ∀ (i : Nat) (out : List Rendered), renderAll i rows = .ok out →
      out.length = rows.length ∧
      (∀ (j : Nat) (hj : j < out.length), (out.get ⟨j, hj⟩).info = sessionInfo (i + j)) ∧
      List.Forall₂ (fun re r => re.durationDisp = rowVal r "Duration") out rows := by
  induction rows with
  | nil =>
    intro i out h
    cases h
    refine ⟨rfl, ?_, List.Forall₂.nil⟩
    intro j hj
    cases hj
  | cons r rs ih =>
    intro i out h
    unfold renderAll at h
    rcases h1 : renderSession i r with e | x
    · rw [h1] at h
      cases h
    · rw [h1] at h
      rcases h2 : renderAll (i + 1) rs with e | xs
      · rw [h2] at h
        cases h
      · rw [h2] at h
        cases h
        obtain ⟨hlen, hinfo, hdur⟩ := ih (i + 1) xs h2
        refine ⟨by rw [List.length_cons, List.length_cons, hlen], ?_, ?_⟩
        · intro j hj
          cases j with
          | zero => simpa using (renderSession_fields i r x h1).1
          | succ j0 =>
            have hstep := hinfo j0 (by simpa using hj)
            have harith : i + 1 + j0 = i + (j0 + 1) := by omega
            rw [harith] at hstep
            rw [List.get_cons_succ]
            exact hstep
        · exact List.Forall₂.cons (renderSession_fields i r x h1).2 hdur

/-- Field structure of a successfully built day group. -/
theorem mkDayGroup_ok (k : Option String) (sessions : List Row) (g : DayGroup)
    (h : mkDayGroup k sessions = .ok g) :
    g.date = k ∧ g.sessions = sessions ∧
    (∃ t, daySeconds sessions 0 = .ok t ∧ g.total = format_duration_seconds t) ∧
    renderAll 0 sessions = .ok g.rendered := by
  unfold mkDayGroup at h
  rcases h1 : daySeconds sessions 0 with e | tot
  · rw [h1] at h
    cases h
  · rw [h1] at h
    rcases h2 : renderAll 0 sessions with e | rend
    · rw [h2] at h
      cases h
    · rw [h2] at h
      cases h
      exact ⟨rfl, rfl, ⟨tot, rfl, rfl⟩, rfl⟩

/-- A successful group-building pass yields one group per sorted key, in
order, each built from its own group of rows. -/
theorem buildGroups_ok (gs : List (Option String × List Row)) :
    ∀ (ks : List (Option String)) (out : List DayGroup),
      buildGroups gs ks = .ok out →
      out.map (fun g => g.date) = ks ∧
      ∀ g ∈ out, mkDayGroup g.date (findVal gs g.date) = .ok g := by
  intro ks
  induction ks with
  | nil =>
    intro out h
    cases h
    exact ⟨rfl, by simp⟩
  | cons k ks ih =>
    intro out h
    unfold buildGroups at h
    rcases h1 : mkDayGroup k (findVal gs k) with e | g
    · rw [h1] at h
      cases h
    · rw [h1] at h
      rcases h2 : buildGroups gs ks with e | rest
      · rw [h2] at h
        cases h
      · rw [h2] at h
        cases h
        obtain ⟨hmap, hmem⟩ := ih rest h2
        have hdate : g.date = k := (mkDayGroup_ok k (findVal gs k) g h1).1
        refine ⟨by simp [hdate, hmap], ?_⟩
        intro g2 hg2
        rcases List.mem_cons.mp hg2 with rfl | hg2
        · rw [hdate]
          exact h1
        · exact hmem g2 hg2

/-- Global structure of every successful load: the built groups follow the
sorted keys of the grouped well-formed rows. -/
theorem load_ok_structure (file : LogFile) (gs : List DayGroup)
    (h : load_logs file = .ok gs) :
    ∃ ks, pySortedDesc ((groupByDate (validRowsOfFile file)).map (fun p => p.1)) = .ok ks ∧
      gs.map (fun g => g.date) = ks ∧
      ∀ g ∈ gs, mkDayGroup g.date (findVal (groupByDate (validRowsOfFile file)) g.date) =
        .ok g := by
  match file with
  | none =>
    cases h
    exact ⟨[], rfl, rfl, by simp⟩
  | some [] =>
    cases h
    exact ⟨[], rfl, rfl, by simp⟩
  | some (header :: data) =>
    have h2 : (match pySortedDesc ((groupByDate (validOf header data)).map (fun p => p.1)) with
        | Except.error e => (Except.error e : Except PyErr (List DayGroup))
        | Except.ok ks => buildGroups (groupByDate (validOf header data)) ks) =
          Except.ok gs := h
    rcases h3 : pySortedDesc ((groupByDate (validOf header data)).map (fun p => p.1))
      with e | ks
    · rw [h3] at h2
      cases h2
    · rw [h3] at h2
      obtain ⟨hmap, hmem⟩ := buildGroups_ok (groupByDate (validOf header data)) ks gs h2
      exact ⟨ks, h3, hmap, hmem⟩

/-- A list of keys that are all present equals the `some`-image of its
underlying strings. -/
theorem all_isSome_eq_map (l : List (Option String))
    (h : l.all (fun k => k.isSome) = true) :
    l = (l.filterMap id).map some := by
  induction l with
  | nil => rfl
  | cons a t ih =>
    simp only [List.all_cons, Bool.and_eq_true] at h
    rcases a with _ | s
    · cases h.1
    · rw [show List.filterMap id (some s :: t) = s :: List.filterMap id t by
        simp [List.filterMap_cons]]
      rw [List.map_cons, ← ih h.2]

/-- Case analysis on a successful key sort. -/
theorem pySortedDesc_ok (ks out : List (Option String)) (h : pySortedDesc ks = .ok out) :
    (ks.length ≤ 1 ∧ out = ks) ∨
    (ks.all (fun k => k.isSome) = true ∧
      out = (sortedDesc (ks.filterMap id)).map some) := by
  unfold pySortedDesc at h
  by_cases h1 : ks.length ≤ 1
  · rw [if_pos h1] at h
    cases h
    exact Or.inl ⟨h1, rfl⟩
  · rw [if_neg h1] at h
    by_cases h2 : ks.all (fun k => k.isSome) = true
    · rw [if_pos h2] at h
      cases h
      exact Or.inr ⟨h2, rfl⟩
    · rw [if_neg h2] at h
      cases h

/-- A successful sort of duplicate-free keys is strictly descending, adjacent
keys being distinct strings. -/
theorem pySortedDesc_strict (ks out : List (Option String))
    (hnd : ks.Nodup) (h : pySortedDesc ks = .ok out) :
    List.Chain' (fun a b => ∃ x y, a = some x ∧ b = some y ∧ strLtB y x = true) out := by
  rcases pySortedDesc_ok ks out h with ⟨h1, hout⟩ | ⟨h2, hout⟩
  · subst out
    rcases ks with _ | ⟨a, _ | ⟨b, t⟩⟩
    · exact List.chain'_nil
    · exact List.chain'_singleton a
    · simp at h1
  · subst hout
    have hmapeq := all_isSome_eq_map ks h2
    have hnds : (ks.filterMap id).Nodup := by
      rw [hmapeq] at hnd
      exact hnd.of_map some
    have hnd2 : (sortedDesc (ks.filterMap id)).Nodup :=
      ((sortedDesc_perm (ks.filterMap id)).nodup_iff).mpr hnds
    have hstrict : List.Pairwise (fun a b => strLtB b a = true)
        (sortedDesc (ks.filterMap id)) := by
      have hand := List.Pairwise.and (pairwise_sortedDesc (ks.filterMap id)) hnd2
      refine hand.imp ?_
      intro a b hab
      have hab1 : strLtB a b = false := by
        have h3 := hab.1
        unfold strGeB at h3
        simpa using h3
      cases hba : strLtB b a
      · exact absurd (strLtB_conn a b hab1 hba) hab.2
      · rfl
    have hpair : List.Pairwise
        (fun a b => ∃ x y, a = some x ∧ b = some y ∧ strLtB y x = true)
        ((sortedDesc (ks.filterMap id)).map some) := by
      rw [List.pairwise_map]
      exact hstrict.imp (fun hab => ⟨_, _, rfl, rfl, hab⟩)
    exact hpair.chain'

/-! ### Claim theorems: aggregation -/

/-- C3 (amended): on every successful load, each day's displayed total is the
formatted sum of the sessions' individually parseable durations, a session
whose duration fails to parse contributing 0 while still being listed with its
raw value; a `ValueError` from a malformed duration component never aborts the
per-day loop — but a duration whose components are integers numbering fewer
than three raises an uncaught `IndexError` that aborts the whole load, so the
original claim holds only for `ValueError`-style parse failures. -/
theorem day_totals_sum_parseable :
    (∀ (file : LogFile) (gs : List DayGroup), load_logs file = .ok gs →
      ∀ g ∈ gs, g.total = format_duration_seconds (sumParseable g.sessions) ∧
        g.rendered.length = g.sessions.length ∧
        List.Forall₂ (fun re r => re.durationDisp = rowVal r "Duration")
          g.rendered g.sessions) ∧
    (∀ (rows : List Row) (acc : Int), daySeconds rows acc ≠ .error .valueError) := by
  constructor
  · intro file gs h g hg
    obtain ⟨ks, hsort, hmap, hmem⟩ := load_ok_structure file gs h
    obtain ⟨hdate, hsess, ⟨t, hday, htot⟩, hrend⟩ :=
      mkDayGroup_ok g.date _ g (hmem g hg)
    have hrend2 : renderAll 0 g.sessions = .ok g.rendered := by
      rw [hsess]
      exact hrend
    have hday2 : daySeconds g.sessions 0 = .ok t := by
      rw [hsess]
      exact hday
    obtain ⟨hlen, hinfo, hdur⟩ := renderAll_ok g.sessions 0 g.rendered hrend2
    refine ⟨?_, hlen, hdur⟩
    rw [htot, daySeconds_ok g.sessions 0 t hday2, Int.zero_add]
  · exact fun rows acc => daySeconds_never_valueError rows acc

/-- C3 witness: a concrete one-row log whose duration `xx` fails to parse is
still listed while contributing zero to the displayed total. -/
theorem day_totals_sum_parseable_witness :
    "00:00:00" = format_duration_seconds (sumParseable
      [[("Date", some "2024-01-06"), ("Start Time", some "09:00:00"),
        ("End Time", some "09:10:00"), ("Duration", some "xx")]]) :=
  (day_totals_sum_parseable.1
    (some [csvHeader, ["2024-01-06", "09:00:00", "09:10:00", "xx"]])
    [{ date := some "2024-01-06",
       info := "2024-01-06 (1 session)",
       total := "00:00:00",
       sessions := [[("Date", some "2024-01-06"), ("Start Time", some "09:00:00"),
                     ("End Time", some "09:10:00"), ("Duration", some "xx")]],
       rendered := [{ info := "  └─ Session 1", startDisp := "09:00:00 AM",
                      endDisp := "09:10:00 AM", durationDisp := some "xx" }] }]
    (by decide)
    { date := some "2024-01-06",
      info := "2024-01-06 (1 session)",
      total := "00:00:00",
      sessions := [[("Date", some "2024-01-06"), ("Start Time", some "09:00:00"),
                    ("End Time", some "09:10:00"), ("Duration", some "xx")]],
      rendered := [{ info := "  └─ Session 1", startDisp := "09:00:00 AM",
                     endDisp := "09:10:00 AM", durationDisp := some "xx" }] }
    (by decide)).1

/-- C7: day groups are presented in strictly descending lexicographic order of
their date strings; rows are grouped by exact string match on the `Date`
field, preserving original file order within each day; and each day's sessions
are numbered `1..N` in that order. -/
theorem groups_sorted_grouped_numbered :
    ∀ (file : LogFile) (gs : List DayGroup), load_logs file = .ok gs →
      List.Chain' (fun a b => ∃ x y, a.date = some x ∧ b.date = some y ∧
        strLtB y x = true) gs ∧
      (∀ g ∈ gs, g.sessions =
        (validRowsOfFile file).filter (fun r => rowVal r "Date" == g.date)) ∧
      (∀ g ∈ gs, g.rendered.length = g.sessions.length ∧
        ∀ (j : Nat) (hj : j < g.rendered.length),
          (g.rendered.get ⟨j, hj⟩).info = "  └─ Session " ++ toString (j + 1)) := by
  intro file gs h
  obtain ⟨ks, hsort, hmap, hmem⟩ := load_ok_structure file gs h
  refine ⟨?_, ?_, ?_⟩
  · have hchain := pySortedDesc_strict _ ks
      (groupByDate_keys_nodup (validRowsOfFile file)) hsort
    rw [← hmap] at hchain
    exact (List.chain'_map (fun g : DayGroup => g.date)).mp hchain
  · intro g hg
    obtain ⟨hdate, hsess, _, _⟩ := mkDayGroup_ok g.date _ g (hmem g hg)
    rw [hsess, groupByDate_findVal]
  · intro g hg
    obtain ⟨hdate, hsess, _, hrend⟩ := mkDayGroup_ok g.date _ g (hmem g hg)
    have hrend2 : renderAll 0 g.sessions = .ok g.rendered := by
      rw [hsess]
      exact hrend
    obtain ⟨hlen, hinfo, _⟩ := renderAll_ok g.sessions 0 g.rendered hrend2
    refine ⟨hlen, ?_⟩
    intro j hj
    have hstep := hinfo j hj
    rw [Nat.zero_add] at hstep
    exact hstep

/-- C7 witness: loading a concrete two-day log presents `2024-01-02` before
`2024-01-01`. -/
theorem groups_sorted_grouped_numbered_witness :
    List.Chain' (fun a b : DayGroup => ∃ x y, a.date = some x ∧ b.date = some y ∧
        strLtB y x = true)
      [{ date := some "2024-01-02",
         info := "2024-01-02 (1 session)",
         total := "00:02:00",
         sessions := [[("Date", some "2024-01-02"), ("Start Time", some "10:00:00"),
                       ("End Time", some "10:02:00"), ("Duration", some "00:02:00")]],
         rendered := [{ info := "  └─ Session 1", startDisp := "10:00:00 AM",
                        endDisp := "10:02:00 AM", durationDisp := some "00:02:00" }] },
       { date := some "2024-01-01",
         info := "2024-01-01 (1 session)",
         total := "00:01:00",
         sessions := [[("Date", some "2024-01-01"), ("Start Time", some "09:00:00"),
                       ("End Time", some "09:01:00"), ("Duration", some "00:01:00")]],
         rendered := [{ info := "  └─ Session 1", startDisp := "09:00:00 AM",
                        endDisp := "09:01:00 AM", durationDisp := some "00:01:00" }] }] :=
  (groups_sorted_grouped_numbered
    (some [csvHeader,
      ["2024-01-01", "09:00:00", "09:01:00", "00:01:00"],
      ["2024-01-02", "10:00:00", "10:02:00", "00:02:00"]])
    [{ date := some "2024-01-02",
       info := "2024-01-02 (1 session)",
       total := "00:02:00",
       sessions := [[("Date", some "2024-01-02"), ("Start Time", some "10:00:00"),
                     ("End Time", some "10:02:00"), ("Duration", some "00:02:00")]],
       rendered := [{ info := "  └─ Session 1", startDisp := "10:00:00 AM",
                      endDisp := "10:02:00 AM", durationDisp := some "00:02:00" }] },
     { date := some "2024-01-01",
       info := "2024-01-01 (1 session)",
       total := "00:01:00",
       sessions := [[("Date", some "2024-01-01"), ("Start Time", some "09:00:00"),
                     ("End Time", some "09:01:00"), ("Duration", some "00:01:00")]],
       rendered := [{ info := "  └─ Session 1", startDisp := "09:00:00 AM",
                      endDisp := "09:01:00 AM", durationDisp := some "00:01:00" }] }]
    (by decide)).1

end WorkLogger
